import Mathlib

/-!
Verification of the conversation-orchestration and KB-retrieval core of the
WhatsApp concierge service (app/kb.py, app/service.py), over a shallow
embedding of the Python source. External collaborators (booking resolver,
embedding provider, chat provider, HTTP transport) appear as parameters;
Python floats are modelled by real numbers; Python str.strip/lower/upper are
modelled on their ASCII behaviour.
-/

set_option maxHeartbeats 1000000

namespace App

/-! ## Python string helpers -/

/-- Models Python str.strip: drop leading and trailing whitespace. -/
def pyStrip (s : String) : String :=
  String.mk (((s.data.dropWhile Char.isWhitespace).reverse.dropWhile Char.isWhitespace).reverse)

/-- Models Python str.lower (ASCII case mapping). -/
def pyLower (s : String) : String := String.mk (s.data.map Char.toLower)

/-- Models Python str.upper (ASCII case mapping). -/
def pyUpper (s : String) : String := String.mk (s.data.map Char.toUpper)

/-! ## Spreadsheet rows and the row hash (app/kb.py) -/

/-- A KB spreadsheet row as produced by KBStore._iter_kb_rows: a Python dict
from canonical column names to optional (stripped, non-empty) cell strings,
modelled as an association list in dict insertion order. -/
abbrev Row := List (String × Option String)

/-- Key order used by json.dumps with sort_keys=True inside _hash_row. -/
def keyLe (p q : String × Option String) : Prop := p.1 ≤ q.1

/-- Strict version of keyLe, used to identify canonically sorted rows. -/
def keyLt (p q : String × Option String) : Prop := p.1 < q.1

instance : DecidableRel keyLe := fun p q => inferInstanceAs (Decidable (p.1 ≤ q.1))

instance : IsTotal (String × Option String) keyLe := ⟨fun p q => le_total p.1 q.1⟩

instance : IsTrans (String × Option String) keyLe := ⟨fun _ _ _ h h2 => le_trans h h2⟩

instance : IsAntisymm (String × Option String) keyLt := ⟨fun _ _ h1 h2 => (lt_asymm h1 h2).elim⟩

/-- Models _hash_row (app/kb.py lines 396-398): the sha256 digest of
json.dumps(row, sort_keys=True, ensure_ascii=False). json.dumps serialises
the items in sorted key order, and both the JSON encoding and the (idealised,
collision-free) sha256 are injective, so the digest is faithfully modelled by
the canonically key-sorted item list itself. -/
def _hash_row (r : Row) : Row := List.insertionSort keyLe r

/-- Models Python dict access row.get(k): none when the key is missing or when
the stored value is None. -/
def rowField (r : Row) (k : String) : Option String := (r.lookup k).join

/-- Models the expression row.get("risposta") or "" (app/kb.py line 187). -/
def rowAnswer (r : Row) : String := (rowField r "risposta").getD ""

/-- Validity filter of _iter_kb_rows (app/kb.py line 212): a parsed row is
yielded only when its risposta value is present, non-empty and non-blank. -/
def validKBRow (r : Row) : Bool :=
  match rowField r "risposta" with
  | some s => !(s == "") && !(pyStrip s == "")
  | none => false

/-! ### Lookup lemmas: dict lookup is permutation-invariant on nodup keys -/

theorem lookup_of_mem_nodup {r : Row} {k : String} {v : Option String}
    (hnd : (r.map Prod.fst).Nodup) (hmem : (k, v) ∈ r) : r.lookup k = some v := by
  induction r with
  | nil => simp at hmem
  | cons p t ih =>
    simp only [List.map_cons, List.nodup_cons] at hnd
    rcases List.mem_cons.mp hmem with h | h
    · rw [← h]
      simp [List.lookup]
    · have hk : k ∈ t.map Prod.fst := List.mem_map_of_mem Prod.fst h
      have hne : (k == p.1) = false := by
        apply beq_eq_false_iff_ne.mpr
        intro he
        exact hnd.1 (he ▸ hk)
      obtain ⟨p1, p2⟩ := p
      simp only [List.lookup, hne]
      exact ih hnd.2 h

theorem mem_of_lookup_eq_some {r : Row} {k : String} {v : Option String}
    (h : r.lookup k = some v) : (k, v) ∈ r := by
  induction r with
  | nil => simp [List.lookup] at h
  | cons p t ih =>
    obtain ⟨p1, p2⟩ := p
    by_cases hk : k = p1
    · subst hk
      simp only [List.lookup, beq_self_eq_true] at h
      cases h
      exact List.mem_cons_self _ _
    · have hne : (k == p1) = false := beq_eq_false_iff_ne.mpr hk
      simp only [List.lookup, hne] at h
      exact List.mem_cons_of_mem _ (ih h)

theorem lookup_eq_none_iff {r : Row} {k : String} :
    r.lookup k = none ↔ k ∉ r.map Prod.fst := by
  induction r with
  | nil => simp [List.lookup]
  | cons p t ih =>
    obtain ⟨p1, p2⟩ := p
    by_cases hk : k = p1
    · subst hk
      simp [List.lookup]
    · have hne : (k == p1) = false := beq_eq_false_iff_ne.mpr hk
      simp [List.lookup, hne, ih, hk]

/-- Dict lookup only depends on the set of items when keys are unique. -/
theorem lookup_perm {r1 r2 : Row} (hp : r1.Perm r2) (hnd : (r1.map Prod.fst).Nodup)
    (k : String) : r1.lookup k = r2.lookup k := by
  have hnd2 : (r2.map Prod.fst).Nodup := ((hp.map Prod.fst).nodup_iff).mp hnd
  cases h : r1.lookup k with
  | some v =>
    exact (lookup_of_mem_nodup hnd2 (hp.mem_iff.mp (mem_of_lookup_eq_some h))).symm
  | none =>
    have hk : k ∉ r1.map Prod.fst := lookup_eq_none_iff.mp h
    have hk2 : k ∉ r2.map Prod.fst := fun hc => hk ((hp.map Prod.fst).mem_iff.mpr hc)
    exact (lookup_eq_none_iff.mpr hk2).symm

theorem rowField_hash (r : Row) (hnd : (r.map Prod.fst).Nodup) (k : String) :
    rowField (_hash_row r) k = rowField r k := by
  unfold rowField _hash_row
  rw [lookup_perm (List.perm_insertionSort keyLe r)
    (((List.perm_insertionSort keyLe r).map Prod.fst).nodup_iff.mpr hnd)]

theorem rowAnswer_hash (r : Row) (hnd : (r.map Prod.fst).Nodup) :
    rowAnswer (_hash_row r) = rowAnswer r := by
  unfold rowAnswer
  rw [rowField_hash r hnd]

theorem validKBRow_hash (r : Row) (hnd : (r.map Prod.fst).Nodup) :
    validKBRow (_hash_row r) = validKBRow r := by
  unfold validKBRow
  rw [rowField_hash r hnd]

/-- The canonical sorted form is determined by the item multiset when keys are
unique: two dicts holding the same key-value pairs hash identically. -/
theorem hash_row_perm {r1 r2 : Row} (hp : r1.Perm r2) (hnd : (r1.map Prod.fst).Nodup) :
    _hash_row r1 = _hash_row r2 := by
  have hperm : (_hash_row r1).Perm (_hash_row r2) :=
    (List.perm_insertionSort keyLe r1).trans
      (hp.trans (List.perm_insertionSort keyLe r2).symm)
  have hnd1 : ((_hash_row r1).map Prod.fst).Nodup :=
    (((List.perm_insertionSort keyLe r1).map Prod.fst).nodup_iff).mpr hnd
  have hnd2' : ((_hash_row r2).map Prod.fst).Nodup :=
    ((hperm.map Prod.fst).nodup_iff).mp hnd1
  have hlt1 : List.Sorted keyLt (_hash_row r1) := by
    have hle : List.Sorted keyLe (_hash_row r1) := List.sorted_insertionSort keyLe r1
    have hne : (_hash_row r1).Pairwise (fun p q => p.1 ≠ q.1) :=
      (List.pairwise_map).mp hnd1
    exact (hle.and hne).imp (fun h => lt_of_le_of_ne h.1 h.2)
  have hlt2 : List.Sorted keyLt (_hash_row r2) := by
    have hle : List.Sorted keyLe (_hash_row r2) := List.sorted_insertionSort keyLe r2
    have hne : (_hash_row r2).Pairwise (fun p q => p.1 ≠ q.1) :=
      (List.pairwise_map).mp hnd2'
    exact (hle.and hne).imp (fun h => lt_of_le_of_ne h.1 h.2)
  exact List.eq_of_perm_of_sorted hperm hlt1 hlt2

/-! ## KB entries and spreadsheet synchronisation (app/kb.py) -/

/-- Models the KBEntry ORM row (app/models.py lines 55-66); the embedding_json
column is modelled by the decoded float vector. -/
structure KBEntry where
  row_hash : Row
  category : Option String
  unit : Option String
  scope : Option String
  description : Option String
  answer : String
  embedding : List ℝ

/-- Models _row_to_embedding_text (app/kb.py lines 387-393): ordered
concatenation of populated recognised fields as lines of field colon value. -/
def _row_to_embedding_text (r : Row) : String :=
  String.intercalate "\n"
    ((["Categoria", "Appartamento /stanza", "ambito", "descrizione", "risposta"].filterMap
      (fun k =>
        match rowField r k with
        | some v => if v == "" then none else some (k ++ ": " ++ v)
        | none => none)))

/-- Models llm.embed_texts (app/llm.py lines 17-20) with the OpenAI embedding
provider abstracted as the function f: one vector per input text. -/
def embed_texts (f : String → List ℝ) (texts : List String) : List (List ℝ) :=
  texts.map f

/-- The KBEntry built for a newly inserted row (app/kb.py lines 180-190). -/
def mkEntry (r : Row) (emb : List ℝ) : KBEntry :=
  { row_hash := _hash_row r
  , category := rowField r "Categoria"
  , unit := rowField r "Appartamento /stanza"
  , scope := rowField r "ambito"
  , description := rowField r "descrizione"
  , answer := rowAnswer r
  , embedding := emb }

/-- Hashes of the desired spreadsheet rows (app/kb.py line 163). -/
def desiredHashes (rows : List Row) : List Row := rows.map _hash_row

/-- The stale stored entries of a sync pass: row_hash no longer among the
desired hashes (app/kb.py line 170). -/
def syncStale (rows : List Row) (existing : List KBEntry) : List KBEntry :=
  existing.filter (fun e => decide (e.row_hash ∉ desiredHashes rows))

/-- The desired rows whose hash is not yet stored (app/kb.py line 175). -/
def syncMissing (rows : List Row) (existing : List KBEntry) : List Row :=
  rows.filter (fun r => decide (_hash_row r ∉ existing.map KBEntry.row_hash))

/-- Number of embed_texts provider calls a sync pass performs (app/kb.py lines
176-178: one batched call, made only when missing is non-empty). -/
def syncEmbedCalls (rows : List Row) (existing : List KBEntry) : Nat :=
  if (syncMissing rows existing).isEmpty then 0 else 1

/-- Models KBStore._sync_rows (app/kb.py lines 157-191): delete stored rows
absent from the spreadsheet, insert spreadsheet rows not yet stored (embedding
them), leave the rest untouched, in one transactional commit. The result is
none when the commit fails on the kb_entries unique row_hash constraint, which
happens exactly when the inserted batch itself contains two rows with the same
hash; in that case nothing is persisted. -/
def _sync_rows (f : String → List ℝ) (rows : List Row) (existing : List KBEntry) :
    Option (List KBEntry) :=
  let missing := syncMissing rows existing
  if ((missing.map _hash_row).Nodup : Prop) then
    some ((existing.filter (fun e => decide (e.row_hash ∈ desiredHashes rows))) ++
      (missing.zip (embed_texts f (missing.map _row_to_embedding_text))).map
        (fun p => mkEntry p.1 p.2))
  else none

/-- Models KBStore.load_from_excel (app/kb.py lines 43-72) at the granularity
of its parsed valid KB rows (the list produced by _iter_kb_rows, line 65):
_sync_rows runs only when that list is non-empty (lines 71-72). Registry
bookkeeping, which touches no KBEntry state, is not modelled. -/
def load_from_excel (f : String → List ℝ) (rows : List Row) (existing : List KBEntry) :
    Option (List KBEntry) :=
  if rows.isEmpty then some existing else _sync_rows f rows existing

/-- Well-formedness every stored entry acquires when created by a sync pass
from a valid spreadsheet row: the stored answer is the risposta value of the
row identified by its hash, and that row passes the validity filter. -/
def WFEntry (e : KBEntry) : Prop :=
  e.answer = rowAnswer e.row_hash ∧ validKBRow e.row_hash = true

/-! ### Generic filter helpers -/

theorem filter_eq_nil_of {α : Type} (p : α → Bool) (l : List α)
    (h : ∀ a ∈ l, p a = false) : l.filter p = [] := by
  induction l with
  | nil => rfl
  | cons x t ih =>
    have hx := h x (List.mem_cons_self _ _)
    simp only [List.filter, hx]
    exact ih (fun a ha => h a (List.mem_cons_of_mem _ ha))

theorem filter_eq_self_of {α : Type} (p : α → Bool) (l : List α)
    (h : ∀ a ∈ l, p a = true) : l.filter p = l := by
  induction l with
  | nil => rfl
  | cons x t ih =>
    have hx := h x (List.mem_cons_self _ _)
    simp only [List.filter, hx]
    exact congrArg _ (ih (fun a ha => h a (List.mem_cons_of_mem _ ha)))

theorem zip_map_mkEntry (f : String → List ℝ) (m : List Row) :
    (m.zip (embed_texts f (m.map _row_to_embedding_text))).map (fun p => mkEntry p.1 p.2) =
      m.map (fun r => mkEntry r (f (_row_to_embedding_text r))) := by
  induction m with
  | nil => rfl
  | cons r t ih =>
    simp only [embed_texts, List.map_cons, List.zip_cons_cons] at *
    exact congrArg _ ih

theorem valid_rowAnswer_ne {r : Row} (h : validKBRow r = true) : rowAnswer r ≠ "" := by
  unfold validKBRow at h
  unfold rowAnswer
  cases hf : rowField r "risposta" with
  | none => rw [hf] at h; cases h
  | some s =>
    rw [hf] at h
    simp only [Bool.and_eq_true, Bool.not_eq_true', beq_eq_false_iff_ne] at h
    simpa using h.1

theorem sync_rows_eq_some {f : String → List ℝ} {rows : List Row} {existing st : List KBEntry}
    (h : _sync_rows f rows existing = some st) :
    ((syncMissing rows existing).map _hash_row).Nodup ∧
    st = existing.filter (fun e => decide (e.row_hash ∈ desiredHashes rows)) ++
      (syncMissing rows existing).map (fun r => mkEntry r (f (_row_to_embedding_text r))) := by
  simp only [_sync_rows] at h
  split at h
  case isTrue hndm =>
    injection h with h
    exact ⟨hndm, by rw [← h, zip_map_mkEntry]⟩
  case isFalse => cases h

/-- Every entry present after a successful sync has its hash among the desired
row hashes. -/
theorem sync_st_hash_desired {f : String → List ℝ} {rows : List Row} {existing st : List KBEntry}
    (h : _sync_rows f rows existing = some st) :
    ∀ e ∈ st, e.row_hash ∈ desiredHashes rows := by
  obtain ⟨-, hst⟩ := sync_rows_eq_some h
  intro e he
  rw [hst] at he
  rcases List.mem_append.mp he with hke | hne
  · exact of_decide_eq_true (List.mem_filter.mp hke).2
  · obtain ⟨r, hrm, rfl⟩ := List.mem_map.mp hne
    exact List.mem_map_of_mem _hash_row (List.mem_of_mem_filter hrm)

/-- Every desired row hash is present after a successful sync. -/
theorem sync_rows_covered {f : String → List ℝ} {rows : List Row} {existing st : List KBEntry}
    (h : _sync_rows f rows existing = some st) :
    ∀ r ∈ rows, _hash_row r ∈ st.map KBEntry.row_hash := by
  obtain ⟨-, hst⟩ := sync_rows_eq_some h
  intro r hr
  by_cases hm : _hash_row r ∈ existing.map KBEntry.row_hash
  · obtain ⟨e, he, heq⟩ := List.mem_map.mp hm
    have hkept : e ∈ existing.filter (fun e => decide (e.row_hash ∈ desiredHashes rows)) := by
      refine List.mem_filter.mpr ⟨he, decide_eq_true ?_⟩
      rw [heq]
      exact List.mem_map_of_mem _hash_row hr
    refine List.mem_map.mpr ⟨e, ?_, heq⟩
    rw [hst]
    exact List.mem_append_left _ hkept
  · have hmiss : r ∈ syncMissing rows existing :=
      List.mem_filter.mpr ⟨hr, decide_eq_true hm⟩
    refine List.mem_map.mpr ⟨mkEntry r (f (_row_to_embedding_text r)), ?_, rfl⟩
    rw [hst]
    exact List.mem_append_right _ (List.mem_map_of_mem _ hmiss)

/-- Claim C7: the row hash is deterministic and independent of the field order
of the row map, and a second sync pass against the same desired rows performs
zero deletions, zero insertions and zero embedding-provider calls, leaving the
stored entry list unchanged. -/
theorem hash_deterministic_sync_idempotent :
    (∀ r1 r2 : Row, r1.Perm r2 → (r1.map Prod.fst).Nodup → _hash_row r1 = _hash_row r2) ∧
    (∀ (f g : String → List ℝ) (rows : List Row) (existing st : List KBEntry),
      _sync_rows f rows existing = some st →
        syncStale rows st = [] ∧ syncMissing rows st = [] ∧
        syncEmbedCalls rows st = 0 ∧ _sync_rows g rows st = some st) := by
  refine ⟨fun r1 r2 hp hnd => hash_row_perm hp hnd, ?_⟩
  intro f g rows existing st h
  have hdes := sync_st_hash_desired h
  have hcov := sync_rows_covered h
  have hstale : syncStale rows st = [] :=
    filter_eq_nil_of _ _ (fun e he => decide_eq_false (not_not_intro (hdes e he)))
  have hmissing : syncMissing rows st = [] :=
    filter_eq_nil_of _ _ (fun r hr => decide_eq_false (not_not_intro (hcov r hr)))
  have hkeep : st.filter (fun e => decide (e.row_hash ∈ desiredHashes rows)) = st :=
    filter_eq_self_of _ _ (fun e he => decide_eq_true (hdes e he))
  refine ⟨hstale, hmissing, ?_, ?_⟩
  · unfold syncEmbedCalls
    rw [hmissing]
    rfl
  · simp only [_sync_rows, hmissing, List.map_nil, List.nodup_nil, if_true, hkeep,
      embed_texts, List.zip_nil_right, List.append_nil]

/-- A concrete two-field row and its field-order swap, for hash witnesses. -/
def rowW : Row := [("descrizione", some "d"), ("risposta", some "ok")]

def rowWswap : Row := [("risposta", some "ok"), ("descrizione", some "d")]

/-- A concrete single-field valid spreadsheet row. -/
def rowP : Row := [("risposta", some "Parcheggio incluso")]

def entryP : KBEntry := mkEntry rowP []

/-- Witness for C7 at concrete inputs: swapping dict field order keeps the
hash, and re-syncing an already synced store is a no-op with no provider call. -/
theorem hash_deterministic_sync_idempotent_witness :
    _hash_row rowW = _hash_row rowWswap ∧
    (syncStale [rowP] [entryP] = [] ∧ syncMissing [rowP] [entryP] = [] ∧
      syncEmbedCalls [rowP] [entryP] = 0 ∧
      _sync_rows (fun _ => []) [rowP] [entryP] = some [entryP]) :=
  ⟨hash_deterministic_sync_idempotent.1 rowW rowWswap (by decide) (by decide),
   hash_deterministic_sync_idempotent.2 (fun _ => []) (fun _ => []) [rowP] [] [entryP] rfl⟩

/-- Counterexample to claim C1 as stated: a first load stores an entry for a
valid row, and a second load whose spreadsheet contains zero valid rows skips
_sync_rows, leaving an entry whose row hash is absent from that load's (empty)
set of valid rows — so after that successful load the stored set is not the
set of valid rows of the load. -/
theorem load_zero_rows_keeps_stale :
    load_from_excel (fun _ => []) [rowP] [] = some [entryP] ∧
    load_from_excel (fun _ => []) ([] : List Row) [entryP] = some [entryP] ∧
    entryP.row_hash ∉ desiredHashes ([] : List Row) ∧
    ([entryP] : List KBEntry) ≠ [] := by
  refine ⟨rfl, rfl, ?_, ?_⟩
  · simp [desiredHashes]
  · simp

/-- Claim C1 (amended): after every successful load whose spreadsheet contains
at least one valid row, the stored entries are exactly the valid rows of that
load — hash sets coincide, no duplicate hashes, every stored answer non-empty;
a successful load with zero valid rows leaves the store unchanged. Both cases
preserve the well-formedness invariant, so this covers every load sequence. -/
theorem load_sync_invariant (f : String → List ℝ) (rows : List Row)
    (existing st : List KBEntry)
    (hv : ∀ r ∈ rows, validKBRow r = true)
    (hk : ∀ r ∈ rows, (r.map Prod.fst).Nodup)
    (hw : ∀ e ∈ existing, WFEntry e)
    (hnd : (existing.map KBEntry.row_hash).Nodup)
    (hload : load_from_excel f rows existing = some st) :
    (rows = [] → st = existing) ∧
    (rows ≠ [] → ∀ h : Row, h ∈ st.map KBEntry.row_hash ↔ h ∈ desiredHashes rows) ∧
    (∀ e ∈ st, e.answer ≠ "") ∧
    ((st.map KBEntry.row_hash).Nodup) ∧
    (∀ e ∈ st, WFEntry e) := by
  unfold load_from_excel at hload
  by_cases hrows : rows = []
  · subst hrows
    simp only [List.isEmpty_nil, if_true, Option.some.injEq] at hload
    subst hload
    refine ⟨fun _ => rfl, fun hne => absurd rfl hne, ?_, hnd, hw⟩
    intro e he
    rw [(hw e he).1]
    exact valid_rowAnswer_ne (hw e he).2
  · have hie : rows.isEmpty = false := by
      cases rows with
      | nil => exact absurd rfl hrows
      | cons a t => rfl
    rw [hie] at hload
    simp only [Bool.false_eq_true, if_false] at hload
    obtain ⟨hndm, hst⟩ := sync_rows_eq_some hload
    have hwf : ∀ e ∈ st, WFEntry e := by
      intro e he
      rw [hst] at he
      rcases List.mem_append.mp he with hke | hne
      · exact hw e (List.mem_filter.mp hke).1
      · obtain ⟨r, hrm, rfl⟩ := List.mem_map.mp hne
        have hr : r ∈ rows := List.mem_of_mem_filter hrm
        exact ⟨(rowAnswer_hash r (hk r hr)).symm,
          (validKBRow_hash r (hk r hr)).trans (hv r hr)⟩
    refine ⟨fun hc => absurd hc hrows, ?_, ?_, ?_, hwf⟩
    · intro _ hh
      constructor
      · intro hmem
        obtain ⟨e, he, rfl⟩ := List.mem_map.mp hmem
        exact sync_st_hash_desired hload e he
      · intro hdes'
        obtain ⟨r, hr, rfl⟩ := List.mem_map.mp hdes'
        exact sync_rows_covered hload r hr
    · intro e he
      rw [(hwf e he).1]
      exact valid_rowAnswer_ne (hwf e he).2
    · rw [hst, List.map_append]
      refine List.Nodup.append ?_ ?_ ?_
      · exact hnd.sublist ((List.filter_sublist _).map _)
      · rw [List.map_map]
        exact hndm
      · intro a ha hb
        rw [List.map_map] at hb
        obtain ⟨r, hrm, hra⟩ := List.mem_map.mp hb
        have hnot : _hash_row r ∉ existing.map KBEntry.row_hash :=
          of_decide_eq_true (List.mem_filter.mp hrm).2
        apply hnot
        have hra' : _hash_row r = a := hra
        rw [hra']
        obtain ⟨e, he, hea⟩ := List.mem_map.mp ha
        exact List.mem_map.mpr ⟨e, (List.filter_sublist _).subset he, hea⟩

/-- Witness for the amended C1 theorem at a concrete non-empty load. -/
theorem load_sync_invariant_witness :
    (([rowP] : List Row) = [] → ([entryP] : List KBEntry) = []) ∧
    (([rowP] : List Row) ≠ [] →
      ∀ h : Row, h ∈ ([entryP] : List KBEntry).map KBEntry.row_hash ↔
        h ∈ desiredHashes [rowP]) ∧
    (∀ e ∈ ([entryP] : List KBEntry), e.answer ≠ "") ∧
    ((([entryP] : List KBEntry).map KBEntry.row_hash).Nodup) ∧
    (∀ e ∈ ([entryP] : List KBEntry), WFEntry e) :=
  load_sync_invariant (fun _ => []) [rowP] [] [entryP]
    (by decide) (by decide) (by simp) (by simp) rfl

/-! ## Property filtering (app/kb.py lines 241-252) -/

/-- The wildcard unit markers of _matches_property (app/kb.py line 246). -/
def wildcardUnits : List String := ["*", "all", "tutte", "tutti", "generale", "general"]

/-- Models KBStore._matches_property: a falsy (absent or empty) unit always
matches; a wildcard unit always matches; otherwise a falsy hint never matches
and a truthy hint matches iff it equals the unit after strip and lowercase. -/
def _matches_property (unit_cell : Option String) (property_hint : Option String) : Bool :=
  match unit_cell with
  | none => true
  | some u =>
    if u == "" then true
    else
      let unit_norm := pyLower (pyStrip u)
      if unit_norm ∈ wildcardUnits then true
      else
        match property_hint with
        | none => false
        | some h => if h == "" then false else unit_norm == pyLower (pyStrip h)

/-- Claim C5: absent or wildcard units match any hint including a missing one;
for a supplied (truthy) hint a plain unit matches exactly when it equals the
hint case-insensitively after trimming; with no (or an empty, falsy) hint a
plain unit never matches. -/
theorem matches_property_spec :
    (∀ hint, _matches_property none hint = true) ∧
    (∀ hint, _matches_property (some "") hint = true) ∧
    (∀ u hint, pyLower (pyStrip u) ∈ wildcardUnits → _matches_property (some u) hint = true) ∧
    (∀ u h, u ≠ "" → pyLower (pyStrip u) ∉ wildcardUnits → h ≠ "" →
      (_matches_property (some u) (some h) = true ↔ pyLower (pyStrip u) = pyLower (pyStrip h))) ∧
    (∀ u, u ≠ "" → pyLower (pyStrip u) ∉ wildcardUnits →
      _matches_property (some u) none = false ∧ _matches_property (some u) (some "") = false) := by
  refine ⟨fun _ => rfl, fun hint => ?_, fun u hint hwild => ?_, fun u h hu hwild hh => ?_,
    fun u hu hwild => ⟨?_, ?_⟩⟩
  · cases hint <;> rfl
  · by_cases hu : u = ""
    · subst hu
      cases hint <;> rfl
    · have hbu : (u == "") = false := beq_eq_false_iff_ne.mpr hu
      cases hint <;> simp [_matches_property, hbu, hwild]
  · have hbu : (u == "") = false := beq_eq_false_iff_ne.mpr hu
    have hbh : (h == "") = false := beq_eq_false_iff_ne.mpr hh
    simp [_matches_property, hbu, hbh, hwild]
  · have hbu : (u == "") = false := beq_eq_false_iff_ne.mpr hu
    simp [_matches_property, hbu, hwild]
  · have hbu : (u == "") = false := beq_eq_false_iff_ne.mpr hu
    simp [_matches_property, hbu, hwild]

/-- Witness for C5 on the spec's concrete examples: a wildcard unit matches
with and without a hint, unit Room12 matches hint room12 but not Room13, and a
plain unit does not match a missing hint. -/
theorem matches_property_witness :
    _matches_property (some "*") none = true ∧
    _matches_property (some "*") (some "Room12") = true ∧
    _matches_property (some "Room12") (some "room12") = true ∧
    _matches_property (some "Room12") (some "Room13") = false ∧
    _matches_property (some "Room12") none = false := by
  refine ⟨matches_property_spec.2.2.1 "*" none (by decide),
    matches_property_spec.2.2.1 "*" (some "Room12") (by decide),
    (matches_property_spec.2.2.2.1 "Room12" "room12" (by decide) (by decide) (by decide)).mpr
      (by decide), ?_, ?_⟩
  · have h := matches_property_spec.2.2.2.1 "Room12" "Room13" (by decide) (by decide) (by decide)
    have hne : ¬ (pyLower (pyStrip "Room12") = pyLower (pyStrip "Room13")) := by decide
    cases hb : _matches_property (some "Room12") (some "Room13") with
    | true => exact absurd (h.mp hb) hne
    | false => rfl
  · exact (matches_property_spec.2.2.2.2 "Room12" (by decide) (by decide)).1

/-! ## Cosine similarity (app/kb.py lines 401-414) -/

/-- One step of the accumulation loop of _cosine_similarity: running dot
product, running norm_a, running norm_b. -/
noncomputable def cosStep (acc : ℝ × ℝ × ℝ) (p : ℝ × ℝ) : ℝ × ℝ × ℝ :=
  (acc.1 + p.1 * p.2, acc.2.1 + p.1 * p.1, acc.2.2 + p.2 * p.2)

/-- The accumulators after the zip loop of _cosine_similarity (app/kb.py lines
404-410); as in the source, components beyond the shorter vector are ignored. -/
noncomputable def cosAcc (a b : List ℝ) : ℝ × ℝ × ℝ :=
  (a.zip b).foldl cosStep (0, 0, 0)

/-- Models _cosine_similarity (app/kb.py lines 401-414); Python floats are
modelled by real numbers, math.sqrt by Real.sqrt. -/
noncomputable def _cosine_similarity (a b : List ℝ) : ℝ :=
  if a = [] ∨ b = [] then 0
  else
    let s := cosAcc a b
    let denom := Real.sqrt s.2.1 * Real.sqrt s.2.2
    if denom = 0 then 0 else s.1 / denom

theorem cosFold_nonneg (l : List (ℝ × ℝ)) (acc : ℝ × ℝ × ℝ)
    (h1 : 0 ≤ acc.2.1) (h2 : 0 ≤ acc.2.2) :
    0 ≤ (l.foldl cosStep acc).2.1 ∧ 0 ≤ (l.foldl cosStep acc).2.2 := by
  induction l generalizing acc with
  | nil => exact ⟨h1, h2⟩
  | cons p t ih =>
    exact ih (cosStep acc p) (add_nonneg h1 (mul_self_nonneg p.1))
      (add_nonneg h2 (mul_self_nonneg p.2))

theorem cosAcc_nonneg (a b : List ℝ) : 0 ≤ (cosAcc a b).2.1 ∧ 0 ≤ (cosAcc a b).2.2 :=
  cosFold_nonneg _ _ le_rfl le_rfl

theorem cosFold_fst_zero (l : List (ℝ × ℝ)) (acc : ℝ × ℝ × ℝ)
    (hl : ∀ p ∈ l, p.1 = 0) : (l.foldl cosStep acc).2.1 = acc.2.1 := by
  induction l generalizing acc with
  | nil => rfl
  | cons p t ih =>
    have hp := hl p (List.mem_cons_self _ _)
    have : (cosStep acc p).2.1 = acc.2.1 := by
      simp [cosStep, hp]
    rw [List.foldl_cons, ih _ (fun q hq => hl q (List.mem_cons_of_mem _ hq)), this]

theorem cosFold_snd_zero (l : List (ℝ × ℝ)) (acc : ℝ × ℝ × ℝ)
    (hl : ∀ p ∈ l, p.2 = 0) : (l.foldl cosStep acc).2.2 = acc.2.2 := by
  induction l generalizing acc with
  | nil => rfl
  | cons p t ih =>
    have hp := hl p (List.mem_cons_self _ _)
    have : (cosStep acc p).2.2 = acc.2.2 := by
      simp [cosStep, hp]
    rw [List.foldl_cons, ih _ (fun q hq => hl q (List.mem_cons_of_mem _ hq)), this]

/-- Claim C8: _cosine_similarity is total and returns exactly 0 for an empty
vector, a computed zero norm, or an all-zero vector on either side; the
division branch is reached only with a nonzero denominator. -/
theorem cosine_similarity_safe :
    (∀ a b : List ℝ, a = [] ∨ b = [] → _cosine_similarity a b = 0) ∧
    (∀ a b : List ℝ, (cosAcc a b).2.1 = 0 ∨ (cosAcc a b).2.2 = 0 →
      _cosine_similarity a b = 0) ∧
    (∀ a b : List ℝ, (∀ x ∈ a, x = 0) → _cosine_similarity a b = 0) ∧
    (∀ a b : List ℝ, (∀ x ∈ b, x = 0) → _cosine_similarity a b = 0) ∧
    (∀ a b : List ℝ, _cosine_similarity a b = 0 ∨
      (Real.sqrt (cosAcc a b).2.1 * Real.sqrt (cosAcc a b).2.2 ≠ 0 ∧
        _cosine_similarity a b =
          (cosAcc a b).1 / (Real.sqrt (cosAcc a b).2.1 * Real.sqrt (cosAcc a b).2.2))) := by
  have heval : ∀ a b : List ℝ, ¬(a = [] ∨ b = []) →
      _cosine_similarity a b =
        if Real.sqrt (cosAcc a b).2.1 * Real.sqrt (cosAcc a b).2.2 = 0 then 0
        else (cosAcc a b).1 / (Real.sqrt (cosAcc a b).2.1 * Real.sqrt (cosAcc a b).2.2) := by
    intro a b he
    unfold _cosine_similarity
    rw [if_neg he]
  have hzero : ∀ a b : List ℝ, (cosAcc a b).2.1 = 0 ∨ (cosAcc a b).2.2 = 0 →
      _cosine_similarity a b = 0 := by
    intro a b hz
    by_cases he : a = [] ∨ b = []
    · unfold _cosine_similarity
      rw [if_pos he]
    · have hden : Real.sqrt (cosAcc a b).2.1 * Real.sqrt (cosAcc a b).2.2 = 0 := by
        rcases hz with hz | hz
        · rw [hz, Real.sqrt_zero, zero_mul]
        · rw [hz, Real.sqrt_zero, mul_zero]
      rw [heval a b he, if_pos hden]
  refine ⟨fun a b he => by unfold _cosine_similarity; rw [if_pos he], hzero, ?_, ?_, ?_⟩
  · intro a b ha
    refine hzero a b (Or.inl ?_)
    unfold cosAcc
    rw [cosFold_fst_zero]
    intro p hp
    exact ha p.1 (List.of_mem_zip hp).1
  · intro a b hb
    refine hzero a b (Or.inr ?_)
    unfold cosAcc
    rw [cosFold_snd_zero]
    intro p hp
    exact hb p.2 (List.of_mem_zip hp).2
  · intro a b
    by_cases he : a = [] ∨ b = []
    · left
      unfold _cosine_similarity
      rw [if_pos he]
    · by_cases hd : Real.sqrt (cosAcc a b).2.1 * Real.sqrt (cosAcc a b).2.2 = 0
      · left
        rw [heval a b he, if_pos hd]
      · right
        exact ⟨hd, by rw [heval a b he, if_neg hd]⟩

/-- Witness for C8: an all-zero query vector and an empty vector both score
exactly 0. -/
theorem cosine_similarity_safe_witness :
    _cosine_similarity [0] [1] = 0 ∧ _cosine_similarity [] [1] = 0 :=
  ⟨cosine_similarity_safe.2.2.1 [0] [1] (by simp),
   cosine_similarity_safe.1 [] [1] (Or.inl rfl)⟩

/-! ## Retrieval (app/kb.py lines 117-155) -/

/-- Models the RetrievedKB dataclass (app/kb.py lines 19-26). -/
structure RetrievedKB where
  score : ℝ
  category : Option String
  unit : Option String
  scope : Option String
  description : Option String
  answer : String

/-- The descending comparison used by candidates.sort with key score and
reverse (app/kb.py line 143). -/
def candGe (p q : ℝ × KBEntry) : Prop := q.1 ≤ p.1

noncomputable instance : DecidableRel candGe :=
  fun p q => inferInstanceAs (Decidable (q.1 ≤ p.1))

instance : IsTotal (ℝ × KBEntry) candGe := ⟨fun p q => le_total q.1 p.1⟩

instance : IsTrans (ℝ × KBEntry) candGe := ⟨fun _ _ _ h1 h2 => le_trans h2 h1⟩

/-- The scored candidate list of retrieve (app/kb.py lines 135-141): entries
surviving the property filter, paired with their cosine score, in load order. -/
noncomputable def scoreCandidates (queryVec : List ℝ) (entries : List KBEntry)
    (hint : Option String) : List (ℝ × KBEntry) :=
  (entries.filter (fun e => _matches_property e.unit hint)).map
    (fun e => (_cosine_similarity queryVec e.embedding, e))

/-- Models candidates.sort(key=lambda x: x[0], reverse=True) (app/kb.py line
143). Python list.sort is stable, and reverse=True keeps equal keys in their
original order, so the sort denotes the unique stable descending sort, modelled
by insertion sort under the candGe comparison. -/
noncomputable def sortCandidates (l : List (ℝ × KBEntry)) : List (ℝ × KBEntry) :=
  List.insertionSort candGe l

/-- The RetrievedKB projection of a scored entry (app/kb.py lines 145-155). -/
def toRetrieved (p : ℝ × KBEntry) : RetrievedKB :=
  { score := p.1, category := p.2.category, unit := p.2.unit, scope := p.2.scope
  , description := p.2.description, answer := p.2.answer }

/-- Models the Python default top_k or settings.kb_top_k (app/kb.py line 124):
a missing or falsy (zero) top_k falls back to the configured value. -/
def resolveTopK (top_k : Option Nat) (cfgTopK : Nat) : Nat :=
  match top_k with
  | some n => if n = 0 then cfgTopK else n
  | none => cfgTopK

/-- Models KBStore.retrieve (app/kb.py lines 117-155) with the stored entry
list and the embedding provider f as parameters: empty store short-circuits
before the embedding call; otherwise the query is embedded once, candidates
are filtered and scored, sorted descending stably, truncated to top_k, and
projected to RetrievedKB. -/
noncomputable def retrieve (f : String → List ℝ) (cfgTopK : Nat) (query : String)
    (hint : Option String) (top_k : Option Nat) (entries : List KBEntry) :
    List RetrievedKB :=
  if entries.isEmpty then []
  else
    let queryVec := (embed_texts f [query]).headI
    ((sortCandidates (scoreCandidates queryVec entries hint)).take
      (resolveTopK top_k cfgTopK)).map toRetrieved

/-! ### Stability of the descending sort -/

theorem orderedInsert_filter_eq (x : ℝ × KBEntry) (l : List (ℝ × KBEntry)) (c : ℝ)
    (hx : x.1 = c) :
    (List.orderedInsert candGe x l).filter (fun p => decide (p.1 = c)) =
      x :: l.filter (fun p => decide (p.1 = c)) := by
  induction l with
  | nil => simp [List.orderedInsert, hx]
  | cons y t ih =>
    by_cases hc : candGe x y
    · simp [List.orderedInsert, hc, hx]
    · have hy : y.1 ≠ c := hx ▸ ne_of_gt (not_le.mp hc)
      simp [List.orderedInsert, hc, hy, ih]

theorem orderedInsert_filter_ne (x : ℝ × KBEntry) (l : List (ℝ × KBEntry)) (c : ℝ)
    (hx : x.1 ≠ c) :
    (List.orderedInsert candGe x l).filter (fun p => decide (p.1 = c)) =
      l.filter (fun p => decide (p.1 = c)) := by
  induction l with
  | nil => simp [List.orderedInsert, hx]
  | cons y t ih =>
    by_cases hc : candGe x y
    · simp [List.orderedInsert, hc, hx]
    · by_cases hy : y.1 = c
      · simp [List.orderedInsert, hc, hy, ih]
      · simp [List.orderedInsert, hc, hy, ih]

/-- The sort is stable: for every score value, the subsequence of candidates
carrying that score is unchanged (original load order). -/
theorem sortCandidates_stable (l : List (ℝ × KBEntry)) (c : ℝ) :
    (sortCandidates l).filter (fun p => decide (p.1 = c)) =
      l.filter (fun p => decide (p.1 = c)) := by
  induction l with
  | nil => rfl
  | cons x t ih =>
    show (List.orderedInsert candGe x (sortCandidates t)).filter (fun p => decide (p.1 = c)) =
      (x :: t).filter (fun p => decide (p.1 = c))
    by_cases hx : x.1 = c
    · calc (List.orderedInsert candGe x (sortCandidates t)).filter (fun p => decide (p.1 = c))
          = x :: (sortCandidates t).filter (fun p => decide (p.1 = c)) :=
            orderedInsert_filter_eq x _ c hx
        _ = x :: t.filter (fun p => decide (p.1 = c)) := by rw [ih]
        _ = (x :: t).filter (fun p => decide (p.1 = c)) := by simp [List.filter_cons, hx]
    · calc (List.orderedInsert candGe x (sortCandidates t)).filter (fun p => decide (p.1 = c))
          = (sortCandidates t).filter (fun p => decide (p.1 = c)) :=
            orderedInsert_filter_ne x _ c hx
        _ = t.filter (fun p => decide (p.1 = c)) := ih
        _ = (x :: t).filter (fun p => decide (p.1 = c)) := by simp [List.filter_cons, hx]

/-! ### Evaluation helpers for concrete retrievals -/

theorem cosine_similarity_eval (a b : List ℝ) (he : ¬(a = [] ∨ b = [])) :
    _cosine_similarity a b =
      if Real.sqrt (cosAcc a b).2.1 * Real.sqrt (cosAcc a b).2.2 = 0 then 0
      else (cosAcc a b).1 / (Real.sqrt (cosAcc a b).2.1 * Real.sqrt (cosAcc a b).2.2) := by
  unfold _cosine_similarity
  rw [if_neg he]

/-- Cosine of the unit query vector against a unit vector with first
coordinate x is exactly x. -/
theorem cos_query_eval (x y : ℝ) (h : x * x + y * y = 1) :
    _cosine_similarity [1, 0] [x, y] = x := by
  have hacc : cosAcc [1, 0] [x, y] = (x, 1, 1) := by
    show ((0:ℝ) + 1 * x + 0 * y, ((0:ℝ) + 1 * 1 + 0 * 0, (0:ℝ) + x * x + y * y)) = (x, 1, 1)
    have h1 : (0:ℝ) + 1 * x + 0 * y = x := by ring
    have h2 : (0:ℝ) + 1 * 1 + 0 * 0 = 1 := by norm_num
    have h3 : (0:ℝ) + x * x + y * y = 1 := by rw [← h]; ring
    rw [h1, h2, h3]
  have hne : ¬([(1:ℝ), 0] = [] ∨ [x, y] = ([] : List ℝ)) := by simp
  rw [cosine_similarity_eval _ _ hne, hacc]
  norm_num [Real.sqrt_one]

/-- Concrete stored entries whose scores against the query vector are exactly
nine tenths, one half and nine tenths. -/
noncomputable def entA : KBEntry :=
  { row_hash := [], category := none, unit := none, scope := none, description := none
  , answer := "ansA", embedding := [9/10, Real.sqrt (19/100)] }

noncomputable def entB : KBEntry :=
  { row_hash := [], category := none, unit := none, scope := none, description := none
  , answer := "ansB", embedding := [1/2, Real.sqrt (3/4)] }

noncomputable def entC : KBEntry :=
  { row_hash := [], category := none, unit := none, scope := none, description := none
  , answer := "ansC", embedding := [9/10, Real.sqrt (19/100)] }

theorem entA_score : _cosine_similarity [1, 0] entA.embedding = 9/10 :=
  cos_query_eval (9/10) (Real.sqrt (19/100))
    (by rw [Real.mul_self_sqrt (by norm_num : (0:ℝ) ≤ 19/100)]; norm_num)

theorem entB_score : _cosine_similarity [1, 0] entB.embedding = 1/2 :=
  cos_query_eval (1/2) (Real.sqrt (3/4))
    (by rw [Real.mul_self_sqrt (by norm_num : (0:ℝ) ≤ 3/4)]; norm_num)

theorem entC_score : _cosine_similarity [1, 0] entC.embedding = 9/10 :=
  cos_query_eval (9/10) (Real.sqrt (19/100))
    (by rw [Real.mul_self_sqrt (by norm_num : (0:ℝ) ≤ 19/100)]; norm_num)

theorem retrieve_eq_of_ne_nil (f : String → List ℝ) (cfgK : Nat) (q : String)
    (hint : Option String) (tk : Option Nat) (entries : List KBEntry)
    (hne : entries.isEmpty = false) :
    retrieve f cfgK q hint tk entries =
      ((sortCandidates (scoreCandidates ((embed_texts f [q]).headI) entries hint)).take
        (resolveTopK tk cfgK)).map toRetrieved := by
  unfold retrieve
  rw [hne]
  simp

theorem retrieve_tie_eval :
    retrieve (fun _ => [(1:ℝ), 0]) 6 "q" none (some 2) [entA, entB, entC] =
      [toRetrieved ((9:ℝ)/10, entA), toRetrieved ((9:ℝ)/10, entC)] := by
  have hsc : scoreCandidates [(1:ℝ), 0] [entA, entB, entC] none =
      [((9:ℝ)/10, entA), ((1:ℝ)/2, entB), ((9:ℝ)/10, entC)] := by
    unfold scoreCandidates
    have hfilter : [entA, entB, entC].filter (fun e => _matches_property e.unit none) =
        [entA, entB, entC] := rfl
    rw [hfilter]
    simp only [List.map_cons, List.map_nil, entA_score, entB_score, entC_score]
  have hsort : sortCandidates [((9:ℝ)/10, entA), ((1:ℝ)/2, entB), ((9:ℝ)/10, entC)] =
      [((9:ℝ)/10, entA), ((9:ℝ)/10, entC), ((1:ℝ)/2, entB)] := by
    unfold sortCandidates
    norm_num [List.insertionSort, List.orderedInsert, candGe]
  rw [retrieve_eq_of_ne_nil (fun _ => [(1:ℝ), 0]) 6 "q" none (some 2) [entA, entB, entC] rfl,
    show (embed_texts (fun _ => [(1:ℝ), 0]) ["q"]).headI = [(1:ℝ), 0] from rfl, hsc, hsort]
  rfl

/-- Claim C6: retrieve returns the surviving candidates sorted in descending
score order with equal-score candidates kept in original load order (stable
tie-break, no secondary key), truncated to the first top_k; in particular,
three entries scoring 0.9, 0.5, 0.9 with top_k of 2 yield the two 0.9-score
entries in original load order. -/
theorem retrieve_sorted_stable :
    (∀ l : List (ℝ × KBEntry),
      (sortCandidates l).Perm l ∧ List.Sorted candGe (sortCandidates l) ∧
      (∀ c : ℝ, (sortCandidates l).filter (fun p => decide (p.1 = c)) =
        l.filter (fun p => decide (p.1 = c)))) ∧
    (∀ (f : String → List ℝ) (cfgK : Nat) (q : String) (hint : Option String)
      (tk : Option Nat) (entries : List KBEntry), entries.isEmpty = false →
      retrieve f cfgK q hint tk entries =
        ((sortCandidates (scoreCandidates ((embed_texts f [q]).headI) entries hint)).take
          (resolveTopK tk cfgK)).map toRetrieved) ∧
    retrieve (fun _ => [(1:ℝ), 0]) 6 "q" none (some 2) [entA, entB, entC] =
      [toRetrieved ((9:ℝ)/10, entA), toRetrieved ((9:ℝ)/10, entC)] :=
  ⟨fun l => ⟨List.perm_insertionSort candGe l, List.sorted_insertionSort candGe l,
    fun c => sortCandidates_stable l c⟩,
   retrieve_eq_of_ne_nil, retrieve_tie_eval⟩

/-- Witness for C6: the tie-breaking retrieval equation applied at the
concrete three-entry store via the general part of the theorem. -/
theorem retrieve_sorted_stable_witness :
    retrieve (fun _ => [(1:ℝ), 0]) 6 "q" none (some 2) [entA, entB, entC] =
      ((sortCandidates (scoreCandidates
        ((embed_texts (fun _ => [(1:ℝ), 0]) ["q"]).headI) [entA, entB, entC] none)).take
          (resolveTopK (some 2) 6)).map toRetrieved :=
  retrieve_sorted_stable.2.1 (fun _ => [(1:ℝ), 0]) 6 "q" none (some 2) [entA, entB, entC] rfl

/-! ## Conversation orchestrator (app/service.py) -/

/-- Models the BookingContext dataclass (app/ciaobooking.py lines 12-17). -/
structure BookingContext where
  booking_id : String
  property_id : String
  guest_last_name : Option String
  guest_language : Option String

/-- Models the HandoffRequest ORM row (app/models.py lines 42-52), as created
by ChatService._create_handoff (app/service.py lines 254-275). -/
structure HandoffRecord where
  phone_e164 : String
  guest_last_name : Option String
  property_id : Option String
  booking_id : Option String
  user_message : String
  reason : String

/-- The shared tail of both handoff acknowledgement templates. -/
def handoffTail : String :=
  "Per offrirLe una risposta precisa la metto subito in contatto con Niccolò, che La ricontatterà al più presto."

/-- Models _handoff_message (app/service.py lines 47-57): a truthy last name
selects the personalised template, otherwise the generic one. -/
def _handoff_message (last_name : Option String) : String :=
  match last_name with
  | some ln =>
    if ln == "" then "Grazie per il messaggio. " ++ handoffTail
    else "Grazie, Sig./Sig.ra/Mx. " ++ ln ++ ". " ++ handoffTail
  | none => "Grazie per il messaggio. " ++ handoffTail

/-- Substring membership over char lists, modelling str.find(sub) being not
minus one. -/
def listHasInfix (pat : List Char) : List Char → Bool
  | [] => pat.isEmpty
  | c :: rest => pat.isPrefixOf (c :: rest) || listHasInfix pat rest

def containsSubstr (s pat : String) : Bool := listHasInfix pat.data s.data

/-- Models the escalation-sentinel check (app/service.py line 188): exact
match of the stripped output, or a case-insensitive substring search for the
sentinel token in the stripped, uppercased output. -/
def sentinelDetected (assistant : String) : Bool :=
  assistant == "[[HANDOFF_NICCOLO]]" ||
    containsSubstr (pyUpper (pyStrip assistant)) "HANDOFF_NICCOLO"

/-- best_score: head score of the retrieval or 0.0 (app/service.py line 101). -/
noncomputable def bestScore : List RetrievedKB → ℝ
  | [] => 0
  | r :: _ => r.score

/-- The observable side effects of one turn: transcript writes, session
booking cache, handoffs created, provider calls made, memory summary write. -/
structure TurnEffects where
  storedUser : List String
  sessionBooking : Option BookingContext
  handoffs : List HandoffRecord
  storedAssistant : List String
  answerChatCalls : Nat
  memoryChatCalls : Nat
  memoryUpdated : Option String

/-- The dict returned by handle_incoming_message; absent keys are none. -/
structure TurnReturn where
  status : String
  assistant_message : String
  booking_found : Bool
  kb_used : Option Bool
  kb_best_score : Option ℝ

/-- Models ChatService.handle_incoming_message (app/service.py lines 65-207).
External collaborators are parameters: booking is the resolver's answer for
the phone number, f the embedding provider, entries the stored KB, chatReply
the chat provider's output for the assembled answer prompt (the prompt text of
lines 121-185 only shapes that output, which is universally quantified here),
memoryOk whether the chat call inside _maybe_update_memory succeeds and
memoryReply its output. The second component of the result is the returned
dict; it is none when the memory-update call raises, since no try/except
guards the await on line 200 and the exception escapes before the return. -/
noncomputable def handle_incoming_message (kb_min_score : ℝ) (kb_top_k : Nat)
    (f : String → List ℝ) (entries : List KBEntry) (booking : Option BookingContext)
    (chatReply : String) (memoryOk : Bool) (memoryReply : String)
    (phone text : String) : TurnEffects × Option TurnReturn :=
  match booking with
  | none =>
    ({ storedUser := [text], sessionBooking := none
     , handoffs := [⟨phone, none, none, none, text, "no_booking"⟩]
     , storedAssistant := [_handoff_message none]
     , answerChatCalls := 0, memoryChatCalls := 0, memoryUpdated := none },
     some { status := "handoff", assistant_message := _handoff_message none
          , booking_found := false, kb_used := none, kb_best_score := none })
  | some b =>
    let retrieved := retrieve f kb_top_k text (some b.property_id) none entries
    let best := bestScore retrieved
    if retrieved.isEmpty = true ∨ best < kb_min_score then
      ({ storedUser := [text], sessionBooking := some b
       , handoffs := [⟨phone, b.guest_last_name, some b.property_id, some b.booking_id,
            text, "no_kb_answer"⟩]
       , storedAssistant := [_handoff_message b.guest_last_name]
       , answerChatCalls := 0, memoryChatCalls := 0, memoryUpdated := none },
       some { status := "handoff", assistant_message := _handoff_message b.guest_last_name
            , booking_found := true, kb_used := some false, kb_best_score := some best })
    else
      let raw := pyStrip chatReply
      let sent := sentinelDetected raw
      let assistant := if sent then _handoff_message b.guest_last_name else raw
      ({ storedUser := [text], sessionBooking := some b
       , handoffs :=
           if sent then
             [⟨phone, b.guest_last_name, some b.property_id, some b.booking_id,
               text, "model_handoff"⟩]
           else []
       , storedAssistant := [assistant]
       , answerChatCalls := 1, memoryChatCalls := 1
       , memoryUpdated := if memoryOk then some (pyStrip memoryReply) else none },
       if memoryOk then
         some { status := "ok", assistant_message := assistant, booking_found := true
              , kb_used := some true, kb_best_score := some best }
       else none)

/-- Claim C3: with no resolvable booking the turn returns status handoff with
a no_booking HandoffRequest, stores the templated acknowledgement, and makes
no chat-provider call at all. -/
theorem no_booking_short_circuit (kb_min_score : ℝ) (kb_top_k : Nat)
    (f : String → List ℝ) (entries : List KBEntry) (chatReply : String)
    (memoryOk : Bool) (memoryReply phone text : String) :
    (handle_incoming_message kb_min_score kb_top_k f entries none chatReply memoryOk
        memoryReply phone text).2 =
      some { status := "handoff", assistant_message := _handoff_message none
           , booking_found := false, kb_used := none, kb_best_score := none } ∧
    (handle_incoming_message kb_min_score kb_top_k f entries none chatReply memoryOk
        memoryReply phone text).1.handoffs =
      [⟨phone, none, none, none, text, "no_booking"⟩] ∧
    (handle_incoming_message kb_min_score kb_top_k f entries none chatReply memoryOk
        memoryReply phone text).1.storedAssistant = [_handoff_message none] ∧
    (handle_incoming_message kb_min_score kb_top_k f entries none chatReply memoryOk
        memoryReply phone text).1.answerChatCalls = 0 ∧
    (handle_incoming_message kb_min_score kb_top_k f entries none chatReply memoryOk
        memoryReply phone text).1.memoryChatCalls = 0 :=
  ⟨rfl, rfl, rfl, rfl, rfl⟩

/-- Claim C4: with a booking but empty retrieval or best score below the
threshold, the turn returns status handoff with a no_kb_answer HandoffRequest,
stores the templated acknowledgement, makes no chat call for answer
generation, and does not refresh the memory summary. -/
theorem kb_insufficient_short_circuit (kb_min_score : ℝ) (kb_top_k : Nat)
    (f : String → List ℝ) (entries : List KBEntry) (b : BookingContext)
    (chatReply : String) (memoryOk : Bool) (memoryReply phone text : String)
    (h : retrieve f kb_top_k text (some b.property_id) none entries = [] ∨
      bestScore (retrieve f kb_top_k text (some b.property_id) none entries) < kb_min_score) :
    (handle_incoming_message kb_min_score kb_top_k f entries (some b) chatReply memoryOk
        memoryReply phone text).2 =
      some { status := "handoff", assistant_message := _handoff_message b.guest_last_name
           , booking_found := true, kb_used := some false
           , kb_best_score :=
               some (bestScore (retrieve f kb_top_k text (some b.property_id) none entries)) } ∧
    (handle_incoming_message kb_min_score kb_top_k f entries (some b) chatReply memoryOk
        memoryReply phone text).1.handoffs =
      [⟨phone, b.guest_last_name, some b.property_id, some b.booking_id, text,
        "no_kb_answer"⟩] ∧
    (handle_incoming_message kb_min_score kb_top_k f entries (some b) chatReply memoryOk
        memoryReply phone text).1.storedAssistant = [_handoff_message b.guest_last_name] ∧
    (handle_incoming_message kb_min_score kb_top_k f entries (some b) chatReply memoryOk
        memoryReply phone text).1.answerChatCalls = 0 ∧
    (handle_incoming_message kb_min_score kb_top_k f entries (some b) chatReply memoryOk
        memoryReply phone text).1.memoryChatCalls = 0 ∧
    (handle_incoming_message kb_min_score kb_top_k f entries (some b) chatReply memoryOk
        memoryReply phone text).1.memoryUpdated = none := by
  have hcond : (retrieve f kb_top_k text (some b.property_id) none entries).isEmpty = true ∨
      bestScore (retrieve f kb_top_k text (some b.property_id) none entries) < kb_min_score := by
    rcases h with h | h
    · exact Or.inl (by rw [h]; rfl)
    · exact Or.inr h
  simp only [handle_incoming_message]
  rw [if_pos hcond]
  exact ⟨rfl, rfl, rfl, rfl, rfl, rfl⟩

/-- A concrete resolved booking used by witnesses. -/
def bW : BookingContext := ⟨"B1", "P1", some "Rossi", none⟩

/-- Witness for C4: an empty KB store with a resolved booking. -/
theorem kb_insufficient_short_circuit_witness :
    (handle_incoming_message 1 6 (fun _ => []) [] (some bW) "ciao" true "m" "p" "q").2 =
      some { status := "handoff", assistant_message := _handoff_message bW.guest_last_name
           , booking_found := true, kb_used := some false
           , kb_best_score :=
               some (bestScore (retrieve (fun _ => []) 6 "q" (some bW.property_id) none [])) } ∧
    (handle_incoming_message 1 6 (fun _ => []) [] (some bW) "ciao" true "m" "p" "q").1.handoffs =
      [⟨"p", bW.guest_last_name, some bW.property_id, some bW.booking_id, "q",
        "no_kb_answer"⟩] ∧
    (handle_incoming_message 1 6 (fun _ => []) [] (some bW) "ciao" true "m" "p"
        "q").1.storedAssistant = [_handoff_message bW.guest_last_name] ∧
    (handle_incoming_message 1 6 (fun _ => []) [] (some bW) "ciao" true "m" "p"
        "q").1.answerChatCalls = 0 ∧
    (handle_incoming_message 1 6 (fun _ => []) [] (some bW) "ciao" true "m" "p"
        "q").1.memoryChatCalls = 0 ∧
    (handle_incoming_message 1 6 (fun _ => []) [] (some bW) "ciao" true "m" "p"
        "q").1.memoryUpdated = none :=
  kb_insufficient_short_circuit 1 6 (fun _ => []) [] bW "ciao" true "m" "p" "q" (Or.inl rfl)

/-- Claim C2: on a sufficient-KB turn whose chat output contains the
escalation sentinel (case-insensitively, anywhere), a model_handoff
HandoffRequest is created and the stored assistant message is the templated
handoff acknowledgement, not the model's text. -/
theorem model_handoff_substitution (kb_min_score : ℝ) (kb_top_k : Nat)
    (f : String → List ℝ) (entries : List KBEntry) (b : BookingContext)
    (chatReply : String) (memoryOk : Bool) (memoryReply phone text : String)
    (hne : (retrieve f kb_top_k text (some b.property_id) none entries).isEmpty = false)
    (hscore : ¬ bestScore (retrieve f kb_top_k text (some b.property_id) none entries)
        < kb_min_score)
    (hsent : sentinelDetected (pyStrip chatReply) = true) :
    (handle_incoming_message kb_min_score kb_top_k f entries (some b) chatReply memoryOk
        memoryReply phone text).1.handoffs =
      [⟨phone, b.guest_last_name, some b.property_id, some b.booking_id, text,
        "model_handoff"⟩] ∧
    (handle_incoming_message kb_min_score kb_top_k f entries (some b) chatReply memoryOk
        memoryReply phone text).1.storedAssistant = [_handoff_message b.guest_last_name] ∧
    (handle_incoming_message kb_min_score kb_top_k f entries (some b) chatReply memoryOk
        memoryReply phone text).1.answerChatCalls = 1 := by
  have hcond : ¬((retrieve f kb_top_k text (some b.property_id) none entries).isEmpty = true ∨
      bestScore (retrieve f kb_top_k text (some b.property_id) none entries) < kb_min_score) := by
    rintro (hc | hc)
    · rw [hne] at hc
      exact Bool.false_ne_true hc
    · exact hscore hc
  simp only [handle_incoming_message]
  rw [if_neg hcond]
  simp [hsent]

/-- A concrete stored entry with score one against the query vector. -/
noncomputable def entW : KBEntry :=
  { row_hash := [], category := none, unit := none, scope := none, description := none
  , answer := "ansW", embedding := [1, 0] }

theorem entW_score : _cosine_similarity [1, 0] entW.embedding = 1 :=
  cos_query_eval 1 0 (by norm_num)

theorem retrieve_entW_eval :
    retrieve (fun _ => [(1:ℝ), 0]) 6 "q" (some bW.property_id) none [entW] =
      [toRetrieved (1, entW)] := by
  rw [retrieve_eq_of_ne_nil (fun _ => [(1:ℝ), 0]) 6 "q" (some bW.property_id) none [entW] rfl]
  have hsc : scoreCandidates [(1:ℝ), 0] [entW] (some bW.property_id) = [((1:ℝ), entW)] := by
    unfold scoreCandidates
    have hfilter : [entW].filter (fun e => _matches_property e.unit (some bW.property_id)) =
        [entW] := rfl
    rw [hfilter]
    simp only [List.map_cons, List.map_nil, entW_score]
  rw [show (embed_texts (fun _ => [(1:ℝ), 0]) ["q"]).headI = [(1:ℝ), 0] from rfl, hsc]
  rfl

/-- Witness for C2: the provider literally answers with the sentinel. -/
theorem model_handoff_substitution_witness :
    (handle_incoming_message (1/2) 6 (fun _ => [(1:ℝ), 0]) [entW] (some bW)
        "[[HANDOFF_NICCOLO]]" true "memo" "p" "q").1.handoffs =
      [⟨"p", bW.guest_last_name, some bW.property_id, some bW.booking_id, "q",
        "model_handoff"⟩] ∧
    (handle_incoming_message (1/2) 6 (fun _ => [(1:ℝ), 0]) [entW] (some bW)
        "[[HANDOFF_NICCOLO]]" true "memo" "p" "q").1.storedAssistant =
      [_handoff_message bW.guest_last_name] ∧
    (handle_incoming_message (1/2) 6 (fun _ => [(1:ℝ), 0]) [entW] (some bW)
        "[[HANDOFF_NICCOLO]]" true "memo" "p" "q").1.answerChatCalls = 1 :=
  model_handoff_substitution (1/2) 6 (fun _ => [(1:ℝ), 0]) [entW] bW
    "[[HANDOFF_NICCOLO]]" true "memo" "p" "q"
    (by rw [retrieve_entW_eval]; rfl)
    (by rw [retrieve_entW_eval]; norm_num [bestScore, toRetrieved])
    rfl

/-- Claim C10: a sentinel-detected turn still returns status ok with
booking_found and kb_used true and performs the memory refresh, unlike the
no_booking and no_kb_answer paths, which return status handoff and skip it. -/
theorem sentinel_turn_returns_ok (kb_min_score : ℝ) (kb_top_k : Nat)
    (f : String → List ℝ) (entries : List KBEntry) (b : BookingContext)
    (chatReply memoryReply phone text : String)
    (hne : (retrieve f kb_top_k text (some b.property_id) none entries).isEmpty = false)
    (hscore : ¬ bestScore (retrieve f kb_top_k text (some b.property_id) none entries)
        < kb_min_score)
    (hsent : sentinelDetected (pyStrip chatReply) = true) :
    (handle_incoming_message kb_min_score kb_top_k f entries (some b) chatReply true
        memoryReply phone text).2 =
      some { status := "ok", assistant_message := _handoff_message b.guest_last_name
           , booking_found := true, kb_used := some true
           , kb_best_score :=
               some (bestScore (retrieve f kb_top_k text (some b.property_id) none entries)) } ∧
    (handle_incoming_message kb_min_score kb_top_k f entries (some b) chatReply true
        memoryReply phone text).1.memoryChatCalls = 1 ∧
    (handle_incoming_message kb_min_score kb_top_k f entries (some b) chatReply true
        memoryReply phone text).1.memoryUpdated = some (pyStrip memoryReply) ∧
    ((handle_incoming_message kb_min_score kb_top_k f entries none chatReply true
        memoryReply phone text).2 =
      some { status := "handoff", assistant_message := _handoff_message none
           , booking_found := false, kb_used := none, kb_best_score := none } ∧
     (handle_incoming_message kb_min_score kb_top_k f entries none chatReply true
        memoryReply phone text).1.memoryChatCalls = 0) ∧
    ((handle_incoming_message kb_min_score kb_top_k f ([] : List KBEntry) (some b) chatReply
        true memoryReply phone text).2 =
      some { status := "handoff", assistant_message := _handoff_message b.guest_last_name
           , booking_found := true, kb_used := some false, kb_best_score := some 0 } ∧
     (handle_incoming_message kb_min_score kb_top_k f ([] : List KBEntry) (some b) chatReply
        true memoryReply phone text).1.memoryChatCalls = 0) := by
  have hcond : ¬((retrieve f kb_top_k text (some b.property_id) none entries).isEmpty = true ∨
      bestScore (retrieve f kb_top_k text (some b.property_id) none entries) < kb_min_score) := by
    rintro (hc | hc)
    · rw [hne] at hc
      exact Bool.false_ne_true hc
    · exact hscore hc
  have hnil : (retrieve f kb_top_k text (some b.property_id) none ([] : List KBEntry)).isEmpty
      = true ∨ bestScore (retrieve f kb_top_k text (some b.property_id) none
        ([] : List KBEntry)) < kb_min_score := Or.inl rfl
  refine ⟨?_, ?_, ?_, ⟨rfl, rfl⟩, ?_⟩
  · simp only [handle_incoming_message]
    rw [if_neg hcond]
    simp [hsent]
  · simp only [handle_incoming_message]
    rw [if_neg hcond]
  · simp only [handle_incoming_message]
    rw [if_neg hcond]
    rfl
  · constructor
    · simp only [handle_incoming_message]
      rw [if_pos hnil]
      rfl
    · simp only [handle_incoming_message]
      rw [if_pos hnil]

/-- Witness for C10 at the concrete sentinel scenario. -/
theorem sentinel_turn_returns_ok_witness :
    (handle_incoming_message (1/2) 6 (fun _ => [(1:ℝ), 0]) [entW] (some bW)
        "[[HANDOFF_NICCOLO]]" true "memo" "p" "q").2 =
      some { status := "ok", assistant_message := _handoff_message bW.guest_last_name
           , booking_found := true, kb_used := some true
           , kb_best_score := some (bestScore (retrieve (fun _ => [(1:ℝ), 0]) 6 "q"
               (some bW.property_id) none [entW])) } ∧
    (handle_incoming_message (1/2) 6 (fun _ => [(1:ℝ), 0]) [entW] (some bW)
        "[[HANDOFF_NICCOLO]]" true "memo" "p" "q").1.memoryChatCalls = 1 ∧
    (handle_incoming_message (1/2) 6 (fun _ => [(1:ℝ), 0]) [entW] (some bW)
        "[[HANDOFF_NICCOLO]]" true "memo" "p" "q").1.memoryUpdated = some (pyStrip "memo") ∧
    ((handle_incoming_message (1/2) 6 (fun _ => [(1:ℝ), 0]) [entW] none
        "[[HANDOFF_NICCOLO]]" true "memo" "p" "q").2 =
      some { status := "handoff", assistant_message := _handoff_message none
           , booking_found := false, kb_used := none, kb_best_score := none } ∧
     (handle_incoming_message (1/2) 6 (fun _ => [(1:ℝ), 0]) [entW] none
        "[[HANDOFF_NICCOLO]]" true "memo" "p" "q").1.memoryChatCalls = 0) ∧
    ((handle_incoming_message (1/2) 6 (fun _ => [(1:ℝ), 0]) ([] : List KBEntry) (some bW)
        "[[HANDOFF_NICCOLO]]" true "memo" "p" "q").2 =
      some { status := "handoff", assistant_message := _handoff_message bW.guest_last_name
           , booking_found := true, kb_used := some false, kb_best_score := some 0 } ∧
     (handle_incoming_message (1/2) 6 (fun _ => [(1:ℝ), 0]) ([] : List KBEntry) (some bW)
        "[[HANDOFF_NICCOLO]]" true "memo" "p" "q").1.memoryChatCalls = 0) :=
  sentinel_turn_returns_ok (1/2) 6 (fun _ => [(1:ℝ), 0]) [entW] bW
    "[[HANDOFF_NICCOLO]]" "memo" "p" "q"
    (by rw [retrieve_entW_eval]; rfl)
    (by rw [retrieve_entW_eval]; norm_num [bestScore, toRetrieved])
    rfl

/-- Claim C9 evaluated at its failing input: on an answered turn whose
memory-update chat call fails, the composed reply is stored to the transcript
but handle_incoming_message returns no value to the caller — nothing guards
the await of _maybe_update_memory, so the exception escapes before the return
statement (app/service.py lines 199-207). -/
theorem memory_failure_aborts_return :
    (handle_incoming_message (1/2) 6 (fun _ => [(1:ℝ), 0]) [entW] (some bW)
        "Va bene." false "memo" "p" "q").2 = none ∧
    (handle_incoming_message (1/2) 6 (fun _ => [(1:ℝ), 0]) [entW] (some bW)
        "Va bene." false "memo" "p" "q").1.storedAssistant = [pyStrip "Va bene."] ∧
    (handle_incoming_message (1/2) 6 (fun _ => [(1:ℝ), 0]) [entW] (some bW)
        "Va bene." false "memo" "p" "q").1.handoffs = [] := by
  have hcond : ¬((retrieve (fun _ => [(1:ℝ), 0]) 6 "q" (some bW.property_id) none
        [entW]).isEmpty = true ∨
      bestScore (retrieve (fun _ => [(1:ℝ), 0]) 6 "q" (some bW.property_id) none [entW])
        < (1/2 : ℝ)) := by
    rw [retrieve_entW_eval]
    rintro (hc | hc)
    · simp at hc
    · norm_num [bestScore, toRetrieved] at hc
  have hsent : sentinelDetected (pyStrip "Va bene.") = false := rfl
  simp only [handle_incoming_message]
  rw [if_neg hcond]
  simp [hsent]

end App
